import Mathlib

/-!
Shallow embedding of the `seder` telemetry server core (src/server.go):
the V0 binary decoder (`decodeV0`), the CSV row/header formatting
(`Sample.row`, `Sample.header`) and the append-only partitioned file
writer (`writeToFileV0`), together with the Go `time` package's UTC
calendar conversion and RFC3339Nano formatting that those functions use.

Bytes are modelled as `Nat` values taken mod 256 at read time; machine
integers are modelled as `Nat`/`Int` with explicit two's-complement
wrapping (`toI16`, `wrap16`); the filesystem is a map from paths to the
list of CSV rows already in the file; Go panics on malformed input are
modelled as `Except.error`.
-/

namespace Seder

/-- A decoded measurement record, mirroring `type Sample struct` in
server.go.  `timestampMs` is the instant produced by
`time.Unix(int64(t1), (int64(t2)+int64(per*i))*1000000)`, expressed in
milliseconds since the Unix epoch (the nanosecond part is always a whole
number of milliseconds). -/
structure Sample where
  id : List Nat
  device : List Nat
  timestampMs : Int
  per : Int
  values : List Int
deriving DecidableEq, Repr

/-- Decoder failure modes: `malformedPayload` models the panic raised via
`PanicIf` when a `binary.Read` hits the end of the buffer; `negativeCount`
models the runtime panic of `make([]*Sample, nsamp, nsamp)` when the
decoded `nsamp` is negative. -/
inductive DecodeErr where
  | malformedPayload
  | negativeCount
deriving DecidableEq, Repr

/-- Reading `n` raw bytes from the front of the buffer, as
`binary.Read(buf, ...)` does for a fixed-width field; too few bytes left
is an error (io.EOF / io.ErrUnexpectedEOF, panicking via `PanicIf`). -/
def takeE (l : List Nat) (n : Nat) : Except DecodeErr (List Nat × List Nat) :=
  if n ≤ l.length then Except.ok (l.take n, l.drop n)
  else Except.error DecodeErr.malformedPayload

/-- Little-endian value of a byte list (each entry reduced mod 256). -/
def leNat (bs : List Nat) : Nat :=
  bs.foldr (fun b acc => b % 256 + 256 * acc) 0

/-- Reinterpret an unsigned 16-bit value as Go's signed `int16`. -/
def toI16 (u : Nat) : Int :=
  if u % 65536 < 32768 then ((u % 65536 : Nat) : Int)
  else ((u % 65536 : Nat) : Int) - 65536

/-- Two's-complement wrap of an integer into the `int16` range, the
semantics Go gives to overflowing `int16` arithmetic such as `per*i`. -/
def wrap16 (x : Int) : Int :=
  (x + 32768) % 65536 - 32768

/-- The seven fixed header fields of a V0 payload, in the order and with
the signedness `decodeV0` reads them: 10-byte id, 10-byte device id,
unsigned 32-bit `t1` (seconds) and `t2` (milliseconds), signed 16-bit
`per` and `nsamp`, one unsigned byte `nmeas`. -/
structure HeaderV0 where
  id : List Nat
  device : List Nat
  t1 : Nat
  t2 : Nat
  per : Int
  nsamp : Int
  nmeas : Nat
deriving DecidableEq, Repr

/-- The seven `binary.Read` calls of `decodeV0` that consume the fixed
header (33 bytes in total), little-endian throughout; each failing read
panics via `PanicIf`, so the first shortfall aborts the decode. -/
def parseHeader (body : List Nat) : Except DecodeErr (HeaderV0 × List Nat) :=
  match takeE body 10 with
  | Except.error e => Except.error e
  | Except.ok (id, r1) =>
    match takeE r1 10 with
    | Except.error e => Except.error e
    | Except.ok (device, r2) =>
      match takeE r2 4 with
      | Except.error e => Except.error e
      | Except.ok (t1b, r3) =>
        match takeE r3 4 with
        | Except.error e => Except.error e
        | Except.ok (t2b, r4) =>
          match takeE r4 2 with
          | Except.error e => Except.error e
          | Except.ok (perb, r5) =>
            match takeE r5 2 with
            | Except.error e => Except.error e
            | Except.ok (nsb, r6) =>
              match takeE r6 1 with
              | Except.error e => Except.error e
              | Except.ok (nmb, r7) =>
                Except.ok ({ id := id, device := device, t1 := leNat t1b,
                             t2 := leNat t2b, per := toI16 (leNat perb),
                             nsamp := toI16 (leNat nsb),
                             nmeas := leNat nmb }, r7)

/-- The inner loop of `decodeV0`: read `c` consecutive signed 16-bit
little-endian sample values (one per channel). -/
def readI16s : List Nat → Nat → Except DecodeErr (List Int × List Nat)
  | rest, 0 => Except.ok ([], rest)
  | rest, c + 1 =>
    match takeE rest 2 with
    | Except.error e => Except.error e
    | Except.ok (b, rest2) =>
      match readI16s rest2 c with
      | Except.error e => Except.error e
      | Except.ok (vs, rest3) => Except.ok (toI16 (leNat b) :: vs, rest3)

/-- The outer loop of `decodeV0`: build the records for indices
`i, i+1, ...` while `n` samples remain.  The timestamp of the record with
loop index `i` is `time.Unix(int64(t1), (int64(t2)+int64(per*i))*1000000)`,
i.e. `base + wrap16 (per * i)` milliseconds, where `per*i` is Go `int16`
multiplication (hence the wrap) and `base = t1*1000 + t2`. -/
def readSamples (id device : List Nat) (base per : Int) (c : Nat) :
    Nat → Nat → List Nat → Except DecodeErr (List Sample)
  | _, 0, _ => Except.ok []
  | i, n + 1, rest =>
    match readI16s rest c with
    | Except.error e => Except.error e
    | Except.ok (vs, rest2) =>
      match readSamples id device base per c (i + 1) n rest2 with
      | Except.error e => Except.error e
      | Except.ok tail =>
        Except.ok ({ id := id, device := device,
                     timestampMs := base + wrap16 (per * (i : Int)),
                     per := per, values := vs } :: tail)

/-- `decodeV0` from server.go: parse the 33-byte fixed header, then
`make([]*Sample, nsamp, nsamp)` (a runtime panic when `nsamp < 0`,
modelled as `negativeCount`), then fill the records in a loop. -/
def decodeV0 (body : List Nat) : Except DecodeErr (List Sample) :=
  match parseHeader body with
  | Except.error e => Except.error e
  | Except.ok (h, rest) =>
    if h.nsamp < 0 then Except.error DecodeErr.negativeCount
    else readSamples h.id h.device ((h.t1 : Int) * 1000 + (h.t2 : Int))
           h.per h.nmeas 0 h.nsamp.toNat rest

/-- The `c` signed 16-bit little-endian integers at the front of `rest`.
This is a statement-side description of one pass of the inner loop,
proven below to characterise `readI16s`; it lets the theorems say which
bytes each record's values come from. -/
def i16Row : List Nat → Nat → List Int
  | _, 0 => []
  | rest, c + 1 => toI16 (leNat (rest.take 2)) :: i16Row (rest.drop 2) c

/-- Placeholder record, used only as the default value of `List.getD`
in theorem statements. -/
def dummySample : Sample :=
  { id := [], device := [], timestampMs := 0, per := 0, values := [] }

/-- Proleptic-Gregorian civil date (year, month, day) of a day number
counted from 1970-01-01, the calendar Go's `time` package uses for
`Time.Date`. -/
def civilFromDays (z0 : Int) : Int × Nat × Nat :=
  let z := z0 + 719468
  let era : Int := Int.fdiv z 146097
  let doe : Nat := (z - era * 146097).toNat
  let yoe : Nat := (doe - doe / 1460 + doe / 36524 - doe / 146096) / 365
  let doy : Nat := doe - (365 * yoe + yoe / 4 - yoe / 100)
  let mp : Nat := (5 * doy + 2) / 153
  let d : Nat := doy - (153 * mp + 2) / 5 + 1
  let m : Nat := if mp < 10 then mp + 3 else mp - 9
  ((yoe : Int) + era * 400 + (if m ≤ 2 then 1 else 0), m, d)

/-- A UTC calendar rendering of an instant, at millisecond resolution
(the decoder never produces finer fractions). -/
structure UTCTime where
  year : Int
  month : Nat
  day : Nat
  hour : Nat
  minute : Nat
  second : Nat
  millis : Nat
deriving DecidableEq, Repr

/-- UTC calendar fields of an instant given in milliseconds since the
Unix epoch (what `Time.UTC()` exposes via `Date`, `Hour`, `Clock`). -/
def utcOfMs (ms : Int) : UTCTime :=
  let s := Int.fdiv ms 1000
  let msR := (Int.fmod ms 1000).toNat
  let days := Int.fdiv s 86400
  let sod := (Int.fmod s 86400).toNat
  let c := civilFromDays days
  { year := c.1, month := c.2.1, day := c.2.2,
    hour := sod / 3600, minute := sod % 3600 / 60, second := sod % 60,
    millis := msR }

/-- Zero-pad to two digits, as Go's `%02d` and layout `01`, `02`, `15`. -/
def pad2 (n : Nat) : String :=
  if n < 10 then "0" ++ toString n else toString n

/-- Zero-pad to three digits. -/
def pad3 (n : Nat) : String :=
  if n < 10 then "00" ++ toString n
  else if n < 100 then "0" ++ toString n
  else toString n

/-- Zero-pad to four digits. -/
def pad4 (n : Nat) : String :=
  if n < 10 then "000" ++ toString n
  else if n < 100 then "00" ++ toString n
  else if n < 1000 then "0" ++ toString n
  else toString n

/-- Year as formatted by Go's layout `2006`. -/
def yearStr (y : Int) : String :=
  if y < 0 then "-" ++ pad4 (-y).toNat else pad4 y.toNat

/-- Fractional-second suffix of `time.RFC3339Nano`: trailing zeros are
dropped, and a zero fraction is omitted entirely. -/
def fracOfMs (ms : Nat) : String :=
  if ms = 0 then ""
  else if ms % 10 ≠ 0 then "." ++ pad3 ms
  else if ms % 100 ≠ 0 then "." ++ pad2 (ms / 10)
  else "." ++ toString (ms / 100)

/-- `Time.UTC().Format(time.RFC3339Nano)` for an instant at millisecond
resolution: the UTC offset prints as `Z`. -/
def rfc3339 (t : UTCTime) : String :=
  yearStr t.year ++ "-" ++ pad2 t.month ++ "-" ++ pad2 t.day ++ "T" ++
  pad2 t.hour ++ ":" ++ pad2 t.minute ++ ":" ++ pad2 t.second ++
  fracOfMs t.millis ++ "Z"

/-- Go's `string(b[:])`: the raw bytes viewed as text, one character per
byte, nothing trimmed or reinterpreted. -/
def stringOfBytes (l : List Nat) : String :=
  String.mk (l.map (fun b => Char.ofNat b))

/-- `Sample.row` from server.go: account id, device id, RFC3339Nano UTC
timestamp, period, then each channel value in decimal. -/
def Sample.row (s : Sample) : List String :=
  [stringOfBytes s.id, stringOfBytes s.device, rfc3339 (utcOfMs s.timestampMs),
   toString s.per] ++ s.values.map (fun v => toString v)

/-- `Sample.header` from server.go: fixed columns then one `Ak` label per
channel of this record. -/
def Sample.header (s : Sample) : List String :=
  ["account", "device", "time", "period"] ++
  (List.range s.values.length).map (fun k => "A" ++ toString k)

/-- The destination path `writeToFileV0` computes from the first record:
`dir/<account>/<YYYY>/<MM>/<DD>/<HH>-<device>.dat` with the UTC calendar
fields of that record's timestamp (`t.Format("2006/01/02")` and
`fmt.Sprintf("%02d-%s.dat", t.Hour(), device)`). -/
def targetPath (s : Sample) (dir : String) : String :=
  let t := utcOfMs s.timestampMs
  dir ++ "/" ++ stringOfBytes s.id ++ "/" ++ yearStr t.year ++ "/" ++
  pad2 t.month ++ "/" ++ pad2 t.day ++ "/" ++ pad2 t.hour ++ "-" ++
  stringOfBytes s.device ++ ".dat"

/-- The filesystem, abstracted to the CSV rows each path currently holds;
an absent file and an existing zero-length file both map to `[]`. -/
abbrev FS := String → List (List String)

/-- The success path of `writeToFileV0` from server.go: no-op on an empty
batch; otherwise open the path derived from the first record in
create/append mode, write the header row when the file was empty
(`fi.Size() == 0`), then one CSV row per record, in order. -/
def writeToFileV0 (samples : List Sample) (dir : String) (fs : FS) : FS :=
  match samples with
  | [] => fs
  | s :: rest =>
    let p := targetPath s dir
    let old := fs p
    fun q =>
      if q = p then
        old ++ (if old = [] then [Sample.header s] else []) ++
          (s :: rest).map Sample.row
      else fs q

/-- Does Go's `encoding/csv` quote this field?  (Empty fields, fields
containing the comma, a quote, CR or LF, and fields starting with a
space character are quoted.) -/
def fieldNeedsQuotes (f : String) : Bool :=
  f.isEmpty ||
  f.data.any (fun c => c == ',' || c == '"' || c == '\r' || c == '\n') ||
  (match f.data with
   | [] => false
   | c :: _ =>
     c == ' ' || c == '\t' || c == '\n' || c == '\r' ||
     c == Char.ofNat 11 || c == Char.ofNat 12 ||
     c == Char.ofNat 133 || c == Char.ofNat 160)

/-- Double every quote character, the escaping used inside a quoted CSV
field. -/
def escapeField (f : String) : String :=
  String.mk (f.data.foldr
    (fun c acc => if c = '"' then '"' :: '"' :: acc else c :: acc) [])

/-- One CSV field as `encoding/csv` emits it. -/
def encodeField (f : String) : String :=
  if fieldNeedsQuotes f then "\"" ++ escapeField f ++ "\"" else f

/-- One CSV record as `csv.Writer.Write` emits it (comma separator,
`\n` terminator since `UseCRLF` is false). -/
def encodeRow (r : List String) : String :=
  String.intercalate "," (r.map encodeField) ++ "\n"

/-- The byte content of a file holding these rows: the concatenation of
the encoded rows in order. -/
def fileBytes (rows : List (List String)) : String :=
  rows.foldr (fun r acc => encodeRow r ++ acc) ""

/-- The size of a file holding these rows (what `fi.Size()` reports). -/
def fileSize (rows : List (List String)) : Nat :=
  (fileBytes rows).length

/-- The writer's failure kind: the spec's `IOFailure`. -/
inductive IOErr where
  | ioFailure
deriving DecidableEq, Repr

/-- A fault model for the filesystem steps `writeToFileV0` performs:
whether `os.MkdirAll`, `os.OpenFile` or `file.Stat` fail, whether the
k-th buffered `csv.Writer.Write` fails, and whether the final flush of
the buffered output to disk fails. -/
structure Faults where
  mkdirFails : Bool
  openFails : Bool
  statFails : Bool
  writeFails : Nat → Bool
  flushFails : Bool

/-- `writeToFileV0` with its error paths, mirroring the control flow of
server.go: empty batch returns nil at once; a failing mkdir/open/stat
returns the error; CSV writes go to the `csv.Writer` buffer and the
first failing write aborts the batch (nothing buffered reaches disk);
`writer.Flush()` is called last but its error is never inspected, so a
failing flush loses the buffered rows yet the function returns nil. -/
def writeToFileV0Run (fl : Faults) (samples : List Sample) (dir : String)
    (fs : FS) : Except IOErr FS :=
  match samples with
  | [] => Except.ok fs
  | s :: rest =>
    if fl.mkdirFails then Except.error IOErr.ioFailure
    else if fl.openFails then Except.error IOErr.ioFailure
    else if fl.statFails then Except.error IOErr.ioFailure
    else
      let p := targetPath s dir
      let old := fs p
      let pending := (if old = [] then [Sample.header s] else []) ++
        (s :: rest).map Sample.row
      match (List.range pending.length).find? (fun k => fl.writeFails k) with
      | some _ => Except.error IOErr.ioFailure
      | none =>
        if fl.flushFails then Except.ok fs
        else Except.ok (fun q => if q = p then old ++ pending else fs q)

/-! ## Header parsing lemmas -/

theorem takeE_ok (l : List Nat) (n : Nat) (h : n ≤ l.length) :
    takeE l n = Except.ok (l.take n, l.drop n) := by
  simp [takeE, h]

theorem takeE_err (l : List Nat) (n : Nat) (h : l.length < n) :
    takeE l n = Except.error DecodeErr.malformedPayload := by
  simp [takeE]
  omega

theorem parseHeader_ok (body : List Nat) (h33 : 33 ≤ body.length) :
    parseHeader body = Except.ok
      ({ id := body.take 10, device := (body.drop 10).take 10,
         t1 := leNat ((body.drop 20).take 4), t2 := leNat ((body.drop 24).take 4),
         per := toI16 (leNat ((body.drop 28).take 2)),
         nsamp := toI16 (leNat ((body.drop 30).take 2)),
         nmeas := leNat ((body.drop 32).take 1) }, body.drop 33) := by
  unfold parseHeader
  rw [takeE_ok body 10 (by omega)]
  dsimp only
  rw [takeE_ok (body.drop 10) 10 (by simp only [List.length_drop]; omega)]
  dsimp only
  rw [takeE_ok ((body.drop 10).drop 10) 4 (by simp only [List.length_drop]; omega)]
  dsimp only
  rw [takeE_ok (((body.drop 10).drop 10).drop 4) 4
      (by simp only [List.length_drop]; omega)]
  dsimp only
  rw [takeE_ok ((((body.drop 10).drop 10).drop 4).drop 4) 2
      (by simp only [List.length_drop]; omega)]
  dsimp only
  rw [takeE_ok (((((body.drop 10).drop 10).drop 4).drop 4).drop 2) 2
      (by simp only [List.length_drop]; omega)]
  dsimp only
  rw [takeE_ok ((((((body.drop 10).drop 10).drop 4).drop 4).drop 2).drop 2) 1
      (by simp only [List.length_drop]; omega)]
  dsimp only
  simp [List.drop_drop]

theorem parseHeader_err (body : List Nat) (h33 : body.length < 33) :
    parseHeader body = Except.error DecodeErr.malformedPayload := by
  unfold parseHeader
  by_cases h1 : 10 ≤ body.length
  · rw [takeE_ok body 10 h1]
    dsimp only
    by_cases h2 : 10 ≤ (body.drop 10).length
    · rw [takeE_ok _ 10 h2]
      dsimp only
      by_cases h3 : 4 ≤ ((body.drop 10).drop 10).length
      · rw [takeE_ok _ 4 h3]
        dsimp only
        by_cases h4 : 4 ≤ (((body.drop 10).drop 10).drop 4).length
        · rw [takeE_ok _ 4 h4]
          dsimp only
          by_cases h5 : 2 ≤ ((((body.drop 10).drop 10).drop 4).drop 4).length
          · rw [takeE_ok _ 2 h5]
            dsimp only
            by_cases h6 : 2 ≤ (((((body.drop 10).drop 10).drop 4).drop 4).drop 2).length
            · rw [takeE_ok _ 2 h6]
              dsimp only
              rw [takeE_err _ 1 (by simp only [List.length_drop]; omega)]
            · rw [takeE_err _ 2 (by omega)]
          · rw [takeE_err _ 2 (by omega)]
        · rw [takeE_err _ 4 (by omega)]
      · rw [takeE_err _ 4 (by omega)]
    · rw [takeE_err _ 10 (by omega)]
  · rw [takeE_err body 10 (by omega)]

theorem parseHeader_ok_inv {body : List Nat} {h : HeaderV0} {rest : List Nat}
    (hp : parseHeader body = Except.ok (h, rest)) :
    33 ≤ body.length ∧ rest = body.drop 33 := by
  by_cases h33 : 33 ≤ body.length
  · rw [parseHeader_ok body h33] at hp
    simp only [Except.ok.injEq, Prod.mk.injEq] at hp
    exact ⟨h33, hp.2.symm⟩
  · rw [parseHeader_err body (by omega)] at hp
    cases hp

/-! ## Sample reading lemmas -/

theorem i16Row_length (rest : List Nat) (c : Nat) : (i16Row rest c).length = c := by
  induction c generalizing rest with
  | zero => simp [i16Row]
  | succ c ih => simp [i16Row, ih]

theorem readI16s_ok (rest : List Nat) (c : Nat) (h : 2 * c ≤ rest.length) :
    readI16s rest c = Except.ok (i16Row rest c, rest.drop (2 * c)) := by
  induction c generalizing rest with
  | zero => simp [readI16s, i16Row]
  | succ c ih =>
    simp only [readI16s]
    rw [takeE_ok rest 2 (by omega)]
    dsimp only
    rw [ih (rest.drop 2) (by simp only [List.length_drop]; omega)]
    dsimp only
    simp only [i16Row, List.drop_drop, Except.ok.injEq, Prod.mk.injEq, true_and]
    congr 1
    omega

theorem readI16s_err (rest : List Nat) (c : Nat) (h : rest.length < 2 * c) :
    readI16s rest c = Except.error DecodeErr.malformedPayload := by
  induction c generalizing rest with
  | zero => omega
  | succ c ih =>
    simp only [readI16s]
    by_cases h2 : 2 ≤ rest.length
    · rw [takeE_ok rest 2 h2]
      dsimp only
      rw [ih (rest.drop 2) (by simp only [List.length_drop]; omega)]
    · rw [takeE_err rest 2 (by omega)]

theorem readI16s_ok_inv {rest : List Nat} {c : Nat} {vs : List Int}
    {rest2 : List Nat} (h : readI16s rest c = Except.ok (vs, rest2)) :
    2 * c ≤ rest.length ∧ vs = i16Row rest c ∧ rest2 = rest.drop (2 * c) := by
  by_cases hc : 2 * c ≤ rest.length
  · rw [readI16s_ok rest c hc] at h
    simp only [Except.ok.injEq, Prod.mk.injEq] at h
    exact ⟨hc, h.1.symm, h.2.symm⟩
  · rw [readI16s_err rest c (by omega)] at h
    cases h

theorem readSamples_ok_of_length (id device : List Nat) (base per : Int)
    (c : Nat) :
    ∀ (n i : Nat) (rest : List Nat), n * (2 * c) ≤ rest.length →
    ∃ l, readSamples id device base per c i n rest = Except.ok l ∧
      l.length = n ∧ (∀ s ∈ l, s.values.length = c) ∧
      ∀ j, j < n →
        (l.getD j dummySample).timestampMs
          = base + wrap16 (per * ((i : Int) + (j : Int))) ∧
        (l.getD j dummySample).values = i16Row (rest.drop (j * (2 * c))) c := by
  intro n
  induction n with
  | zero =>
    intro i rest _
    exact ⟨[], rfl, rfl, by simp, fun j hj => absurd hj (by omega)⟩
  | succ n ih =>
    intro i rest h
    rw [Nat.succ_mul] at h
    have h2c : 2 * c ≤ rest.length := by
      generalize hA : n * (2 * c) = A at h
      omega
    obtain ⟨l, hl, hlen, hmem, hget⟩ := ih (i + 1) (rest.drop (2 * c))
      (by simp only [List.length_drop]; generalize hA : n * (2 * c) = A at h ⊢; omega)
    refine ⟨{ id := id, device := device,
              timestampMs := base + wrap16 (per * (i : Int)),
              per := per, values := i16Row rest c } :: l, ?_, ?_, ?_, ?_⟩
    · simp only [readSamples]
      rw [readI16s_ok rest c h2c]
      dsimp only
      rw [hl]
    · simp [hlen]
    · intro s hs
      rcases List.mem_cons.mp hs with hs | hs
      · rw [hs]
        exact i16Row_length rest c
      · exact hmem s hs
    · intro j hj
      cases j with
      | zero =>
        constructor
        · simp
        · simp [i16Row]
      | succ j =>
        have hj' : j < n := by omega
        obtain ⟨ht, hv⟩ := hget j hj'
        constructor
        · simp only [List.getD, List.get?_cons_succ] at ht ⊢
          rw [ht]
          congr 1
          push_cast
          ring_nf
        · simp only [List.getD, List.get?_cons_succ] at hv ⊢
          rw [hv, List.drop_drop]
          have he : 2 * c + j * (2 * c) = (j + 1) * (2 * c) := by
            rw [Nat.succ_mul j (2 * c)]
            omega
          rw [he]

theorem readSamples_err (id device : List Nat) (base per : Int) (c : Nat) :
    ∀ (n i : Nat) (rest : List Nat), rest.length < n * (2 * c) →
    readSamples id device base per c i n rest
      = Except.error DecodeErr.malformedPayload := by
  intro n
  induction n with
  | zero => intro i rest h; omega
  | succ n ih =>
    intro i rest h
    rw [Nat.succ_mul] at h
    simp only [readSamples]
    by_cases h2 : 2 * c ≤ rest.length
    · rw [readI16s_ok rest c h2]
      dsimp only
      rw [ih (i + 1) (rest.drop (2 * c))
        (by simp only [List.length_drop]; generalize hA : n * (2 * c) = A at h ⊢; omega)]
    · rw [readI16s_err rest c (by omega)]

theorem readSamples_ok_length_inv (id device : List Nat) (base per : Int)
    (c : Nat) :
    ∀ (n i : Nat) (rest : List Nat) (l : List Sample),
    readSamples id device base per c i n rest = Except.ok l →
    n * (2 * c) ≤ rest.length := by
  intro n
  induction n with
  | zero => intro i rest l _; simp
  | succ n ih =>
    intro i rest l h
    simp only [readSamples] at h
    rcases hri : readI16s rest c with e | ⟨vs, rest2⟩
    · rw [hri] at h; cases h
    · rw [hri] at h
      dsimp only at h
      obtain ⟨hb, -, hr2⟩ := readI16s_ok_inv hri
      rcases hrs : readSamples id device base per c (i + 1) n rest2 with e | tail
      · rw [hrs] at h; cases h
      · have := ih (i + 1) rest2 tail hrs
        rw [hr2, List.length_drop] at this
        rw [Nat.succ_mul]
        generalize hA : n * (2 * c) = A at this ⊢
        omega

theorem readSamples_ok_char (id device : List Nat) (base per : Int) (c : Nat)
    (n i : Nat) (rest : List Nat) (l : List Sample)
    (h : readSamples id device base per c i n rest = Except.ok l) :
    l.length = n ∧ (∀ s ∈ l, s.values.length = c) ∧
    ∀ j, j < n →
      (l.getD j dummySample).timestampMs
        = base + wrap16 (per * ((i : Int) + (j : Int))) ∧
      (l.getD j dummySample).values = i16Row (rest.drop (j * (2 * c))) c := by
  obtain ⟨l', hl', hprops⟩ := readSamples_ok_of_length id device base per c n i rest
    (readSamples_ok_length_inv id device base per c n i rest l h)
  rw [h] at hl'
  injection hl' with hll
  rw [← hll] at hprops
  exact hprops

/-! ## Decoder characterisation -/

theorem wrap16_eq_self {x : Int} (hlo : -32768 ≤ x) (hhi : x ≤ 32767) :
    wrap16 x = x := by
  unfold wrap16
  omega

theorem decodeV0_ok_char {body : List Nat} {h : HeaderV0} {rest : List Nat}
    (hp : parseHeader body = Except.ok (h, rest)) {samples : List Sample}
    (hd : decodeV0 body = Except.ok samples) :
    0 ≤ h.nsamp ∧ samples.length = h.nsamp.toNat ∧
    (∀ s ∈ samples, s.values.length = h.nmeas) ∧
    ∀ j, j < samples.length →
      (samples.getD j dummySample).timestampMs
        = (h.t1 : Int) * 1000 + (h.t2 : Int) + wrap16 (h.per * (j : Int)) ∧
      (samples.getD j dummySample).values
        = i16Row (rest.drop (j * (2 * h.nmeas))) h.nmeas := by
  unfold decodeV0 at hd
  rw [hp] at hd
  dsimp only at hd
  by_cases hns : h.nsamp < 0
  · rw [if_pos hns] at hd
    cases hd
  · rw [if_neg hns] at hd
    obtain ⟨hlen, hmem, hget⟩ := readSamples_ok_char _ _ _ _ _ _ _ _ _ hd
    refine ⟨by omega, hlen, hmem, ?_⟩
    intro j hj
    obtain ⟨ht, hv⟩ := hget j (by omega)
    refine ⟨?_, hv⟩
    rw [ht]
    norm_num

/-! ## Writer lemmas -/

theorem writeToFileV0_cons (s : Sample) (t : List Sample) (dir : String)
    (fs : FS) (q : String) :
    writeToFileV0 (s :: t) dir fs q =
      if q = targetPath s dir then
        fs (targetPath s dir) ++
        (if fs (targetPath s dir) = [] then [Sample.header s] else []) ++
        (s :: t).map Sample.row
      else fs q := rfl

theorem stringOfBytes_length (l : List Nat) :
    (stringOfBytes l).length = l.length := by
  show (l.map _).length = l.length
  exact List.length_map l _

theorem header_ne_row (s0 s : Sample) (hid : s.id.length = 10) :
    Sample.header s0 ≠ Sample.row s := by
  intro he
  have h1 : "account" = stringOfBytes s.id := by
    have h2 := congrArg (fun l => l.headD "") he
    simpa [Sample.header, Sample.row] using h2
  have h3 := congrArg String.length h1
  rw [stringOfBytes_length s.id, hid] at h3
  exact absurd h3 (by decide)

theorem fileBytes_append (a b : List (List String)) :
    fileBytes (a ++ b) = fileBytes a ++ fileBytes b := by
  induction a with
  | nil => simp [fileBytes]
  | cons r t ih =>
    simp only [fileBytes, List.foldr_cons, List.cons_append] at ih ⊢
    rw [ih, String.append_assoc]

theorem fileSize_append (a b : List (List String)) :
    fileSize (a ++ b) = fileSize a + fileSize b := by
  unfold fileSize
  rw [fileBytes_append, String.length_append]

theorem encodeRow_length_pos (r : List String) : 1 ≤ (encodeRow r).length := by
  unfold encodeRow
  rw [String.length_append]
  have h1 : ("\n" : String).length = 1 := rfl
  omega

theorem fileSize_eq_zero_iff (rows : List (List String)) :
    fileSize rows = 0 ↔ rows = [] := by
  cases rows with
  | nil => simp [fileSize, fileBytes]
  | cons r t =>
    simp only [fileSize, fileBytes, List.foldr_cons]
    rw [String.length_append]
    have := encodeRow_length_pos r
    constructor
    · intro h0
      omega
    · intro h0
      cases h0

/-! ## Concrete payloads used by the claims -/

/-- Little-endian byte pair of a 16-bit value, for building payloads. -/
def le2 (n : Nat) : List Nat := [n % 256, n / 256 % 256]

/-- Little-endian bytes of a 32-bit value, for building payloads. -/
def le4 (n : Nat) : List Nat :=
  [n % 256, n / 256 % 256, n / 65536 % 256, n / 16777216 % 256]

/-- The ten bytes of the account identifier `ACCOUNT001`. -/
def accBytes : List Nat := [65, 67, 67, 79, 85, 78, 84, 48, 48, 49]

/-- The ten bytes of the device identifier `DEVICE0001`. -/
def devBytes : List Nat := [68, 69, 86, 73, 67, 69, 48, 48, 48, 49]

/-! ## Claim C1 -/

/-- The payload of the spec's concrete example: t1 = 1394413060 s,
t2 = 0 ms, period = 1000 ms, 2 samples of 2 channels, values
`[10,20]` and `[30,40]`. -/
def payloadC1 : List Nat :=
  accBytes ++ devBytes ++ le4 1394413060 ++ le4 0 ++ le2 1000 ++ le2 2 ++
  [2] ++ le2 10 ++ le2 20 ++ le2 30 ++ le2 40

/-- The first record the example payload decodes to. -/
def recC1a : Sample :=
  { id := accBytes, device := devBytes, timestampMs := 1394413060000,
    per := 1000, values := [10, 20] }

/-- The second record the example payload decodes to. -/
def recC1b : Sample :=
  { id := accBytes, device := devBytes, timestampMs := 1394413061000,
    per := 1000, values := [30, 40] }

/-- Claim C1 counterexample: decoding the example payload yields record 0
whose timestamp falls at UTC hour 0 (2014-03-10T00:57:40Z), not at the
claimed hour 1 — Unix second 1394413060 is 00:57:40 UTC, so the claimed
instant 2014-03-10T01:57:40.000Z is wrong. -/
theorem C1_counterexample :
    decodeV0 payloadC1 = Except.ok [recC1a, recC1b] ∧
    utcOfMs recC1a.timestampMs
      = { year := 2014, month := 3, day := 10, hour := 0, minute := 57,
          second := 40, millis := 0 } ∧
    (utcOfMs recC1a.timestampMs).hour ≠ 1 ∧
    rfc3339 (utcOfMs recC1a.timestampMs) ≠ "2014-03-10T01:57:40Z" := by
  refine ⟨by rfl, by rfl, by decide, by decide⟩

/-- Claim C1 (amended): the example payload decodes to record 0 at
2014-03-10T00:57:40.000Z (UTC) with values [10,20] and record 1 at
2014-03-10T00:57:41.000Z with values [30,40] — one hour earlier than the
claim states — and appending the batch to a fresh root directory produces
a single file whose header row is exactly `account,device,time,period,A0,A1`. -/
theorem C1_example_decode_and_write :
    decodeV0 payloadC1 = Except.ok [recC1a, recC1b] ∧
    recC1a.values = [10, 20] ∧ recC1b.values = [30, 40] ∧
    rfc3339 (utcOfMs recC1a.timestampMs) = "2014-03-10T00:57:40Z" ∧
    rfc3339 (utcOfMs recC1b.timestampMs) = "2014-03-10T00:57:41Z" ∧
    targetPath recC1a "root" = "root/ACCOUNT001/2014/03/10/00-DEVICE0001.dat" ∧
    writeToFileV0 [recC1a, recC1b] "root" (fun _ => []) =
      (fun q =>
        if q = "root/ACCOUNT001/2014/03/10/00-DEVICE0001.dat" then
          [["account", "device", "time", "period", "A0", "A1"],
           ["ACCOUNT001", "DEVICE0001", "2014-03-10T00:57:40Z", "1000", "10", "20"],
           ["ACCOUNT001", "DEVICE0001", "2014-03-10T00:57:41Z", "1000", "30", "40"]]
        else []) ∧
    Sample.header recC1a = ["account", "device", "time", "period", "A0", "A1"] ∧
    encodeRow ["account", "device", "time", "period", "A0", "A1"]
      = "account,device,time,period,A0,A1\n" := by
  have hpath : targetPath recC1a "root"
      = "root/ACCOUNT001/2014/03/10/00-DEVICE0001.dat" := by rfl
  refine ⟨by rfl, rfl, rfl, by rfl, by rfl, hpath, ?_, by rfl, by rfl⟩
  funext q
  rw [writeToFileV0_cons, hpath]
  by_cases hq : q = "root/ACCOUNT001/2014/03/10/00-DEVICE0001.dat"
  · rw [if_pos hq, if_pos hq]
    rfl
  · rw [if_neg hq, if_neg hq]

/-! ## Claim C2 -/

/-- A payload whose `int16` product `per*i` overflows: period 16384 ms,
3 samples, 0 channels. -/
def payloadC2 : List Nat :=
  accBytes ++ devBytes ++ le4 100 ++ le4 0 ++ le2 16384 ++ le2 3 ++ [0]

/-- The header `payloadC2` parses to. -/
def hdrC2 : HeaderV0 :=
  { id := accBytes, device := devBytes, t1 := 100, t2 := 0, per := 16384,
    nsamp := 3, nmeas := 0 }

/-- The records `payloadC2` decodes to: the third timestamp wraps, because
`16384 * 2 = 32768` overflows `int16` to `-32768`. -/
def samplesC2 : List Sample :=
  [{ id := accBytes, device := devBytes, timestampMs := 100000, per := 16384,
     values := [] },
   { id := accBytes, device := devBytes, timestampMs := 116384, per := 16384,
     values := [] },
   { id := accBytes, device := devBytes, timestampMs := 67232, per := 16384,
     values := [] }]

/-- Claim C2 counterexample: `payloadC2` decodes successfully, yet record 2's
timestamp is not `t1*1000 + t2 + 2*per` and the step from record 1 to
record 2 is `-49152` ms, not `per = 16384` ms — the Go `int16` product
`per*i` wraps. -/
theorem C2_counterexample :
    decodeV0 payloadC2 = Except.ok samplesC2 ∧
    parseHeader payloadC2 = Except.ok (hdrC2, []) ∧
    hdrC2.per = 16384 ∧ samplesC2.length = 3 ∧
    ¬ ((samplesC2.getD 2 dummySample).timestampMs
        - (samplesC2.getD 1 dummySample).timestampMs = hdrC2.per) ∧
    ¬ ((samplesC2.getD 2 dummySample).timestampMs
        = (hdrC2.t1 : Int) * 1000 + (hdrC2.t2 : Int) + hdrC2.per * 2) := by
  refine ⟨by rfl, by rfl, rfl, rfl, by decide, by decide⟩

/-- Claim C2 (amended): for every successfully decoded batch, the timestamp
of record `i` is `t1*1000 + t2 + wrap16(per * i)` milliseconds, where
`wrap16` is the two's-complement wrap of the Go `int16` product `per*i`
(see `decodeV0_ok_char`); whenever `per*i` and `per*(i+1)` both lie in the
`int16` range — the regime the spec's linear formula describes — the
timestamp of record `i` equals `t1*1000 + t2 + per*i` exactly and
consecutive records differ by exactly `per` milliseconds. -/
theorem C2_timestamp_linearity (body : List Nat) (h : HeaderV0)
    (rest : List Nat) (hp : parseHeader body = Except.ok (h, rest))
    (samples : List Sample) (hd : decodeV0 body = Except.ok samples)
    (i : Nat) (hi : i + 1 < samples.length)
    (hlo0 : -32768 ≤ h.per * (i : Int)) (hhi0 : h.per * (i : Int) ≤ 32767)
    (hlo1 : -32768 ≤ h.per * ((i : Int) + 1))
    (hhi1 : h.per * ((i : Int) + 1) ≤ 32767) :
    (samples.getD i dummySample).timestampMs
      = (h.t1 : Int) * 1000 + (h.t2 : Int) + h.per * (i : Int) ∧
    (samples.getD (i + 1) dummySample).timestampMs
      - (samples.getD i dummySample).timestampMs = h.per := by
  obtain ⟨-, -, -, hget⟩ := decodeV0_ok_char hp hd
  obtain ⟨ht0, -⟩ := hget i (by omega)
  obtain ⟨ht1, -⟩ := hget (i + 1) hi
  rw [wrap16_eq_self hlo0 hhi0] at ht0
  have hc : ((i + 1 : Nat) : Int) = (i : Int) + 1 := by push_cast; ring
  rw [hc, wrap16_eq_self hlo1 hhi1] at ht1
  refine ⟨ht0, ?_⟩
  rw [ht0, ht1]
  ring

/-- A well-behaved payload for the C2 witness: t1 = 10 s, period 1000 ms,
2 samples of 1 channel with values 5 and 6. -/
def payloadC2w : List Nat :=
  accBytes ++ devBytes ++ le4 10 ++ le4 0 ++ le2 1000 ++ le2 2 ++ [1] ++
  le2 5 ++ le2 6

/-- The header `payloadC2w` parses to. -/
def hdrC2w : HeaderV0 :=
  { id := accBytes, device := devBytes, t1 := 10, t2 := 0, per := 1000,
    nsamp := 2, nmeas := 1 }

/-- The sample bytes of `payloadC2w` after the header. -/
def restC2w : List Nat := [5, 0, 6, 0]

/-- The records `payloadC2w` decodes to. -/
def samplesC2w : List Sample :=
  [{ id := accBytes, device := devBytes, timestampMs := 10000, per := 1000,
     values := [5] },
   { id := accBytes, device := devBytes, timestampMs := 11000, per := 1000,
     values := [6] }]

/-- Witness for `C2_timestamp_linearity` at `payloadC2w`, index 0. -/
theorem C2_timestamp_linearity_witness :
    (samplesC2w.getD 0 dummySample).timestampMs
      = (hdrC2w.t1 : Int) * 1000 + (hdrC2w.t2 : Int)
        + hdrC2w.per * ((0 : Nat) : Int) ∧
    (samplesC2w.getD (0 + 1) dummySample).timestampMs
      - (samplesC2w.getD 0 dummySample).timestampMs = hdrC2w.per :=
  C2_timestamp_linearity payloadC2w hdrC2w restC2w rfl samplesC2w rfl 0
    (by decide) (by decide) (by decide) (by decide) (by decide)

/-! ## Claim C3 -/

/-- A payload of exactly `23 + N*C*2` bytes for `N = 5`, `C = 1`: 33 bytes
in total, which is only enough for the fixed header. -/
def payloadC3 : List Nat :=
  accBytes ++ devBytes ++ le4 0 ++ le4 0 ++ le2 1 ++ le2 5 ++ [1]

/-- The header `payloadC3` parses to. -/
def hdrC3 : HeaderV0 :=
  { id := accBytes, device := devBytes, t1 := 0, t2 := 0, per := 1,
    nsamp := 5, nmeas := 1 }

/-- Claim C3 counterexample: `payloadC3` has exactly `23 + 5*1*2 = 33`
bytes and its header declares `N = 5`, `C = 1`, yet decode fails — the
fixed header is 33 bytes (10+10+4+4+2+2+1), not the 23 the claim uses, so
no sample bytes remain. -/
theorem C3_counterexample :
    payloadC3.length = 23 + 5 * 1 * 2 ∧
    parseHeader payloadC3 = Except.ok (hdrC3, []) ∧
    hdrC3.nsamp = 5 ∧ hdrC3.nmeas = 1 ∧
    decodeV0 payloadC3 = Except.error DecodeErr.malformedPayload :=
  ⟨rfl, rfl, rfl, rfl, rfl⟩

/-- Claim C3 (amended): for every payload whose header declares sample
count `N ≥ 0` and channel count `C` and that contains exactly
`33 + N*C*2` bytes (the fixed header is 33 bytes, not the 23 the claim
uses), decode succeeds and returns exactly N records of exactly C signed
16-bit values each, read in row-major channel order from the bytes after
the header; in particular `N = 0` yields an empty record sequence without
error and `C = 0` yields records with empty values. -/
theorem C3_exact_length_decodes (body : List Nat) (h : HeaderV0)
    (rest : List Nat) (hp : parseHeader body = Except.ok (h, rest))
    (hns : 0 ≤ h.nsamp)
    (hlen : (body.length : Int) = 33 + h.nsamp * (h.nmeas : Int) * 2) :
    ∃ samples, decodeV0 body = Except.ok samples ∧
      (samples.length : Int) = h.nsamp ∧
      (∀ s ∈ samples, s.values.length = h.nmeas) ∧
      ∀ j, j < samples.length →
        (samples.getD j dummySample).values
          = i16Row (rest.drop (j * (2 * h.nmeas))) h.nmeas := by
  obtain ⟨h33, hrest⟩ := parseHeader_ok_inv hp
  set N := h.nsamp.toNat with hN
  have hcast : h.nsamp = (N : Int) := (Int.toNat_of_nonneg hns).symm
  rw [hcast] at hlen
  have hlenN : body.length = 33 + N * h.nmeas * 2 := by exact_mod_cast hlen
  have hrl : N * (2 * h.nmeas) ≤ rest.length := by
    rw [hrest, List.length_drop]
    have e1 : N * (2 * h.nmeas) = N * h.nmeas * 2 := by ring
    rw [e1, hlenN]
    omega
  obtain ⟨l, hl, hlen', hmem, hget⟩ :=
    readSamples_ok_of_length h.id h.device ((h.t1 : Int) * 1000 + (h.t2 : Int))
      h.per h.nmeas N 0 rest hrl
  refine ⟨l, ?_, ?_, hmem, ?_⟩
  · unfold decodeV0
    rw [hp]
    dsimp only
    rw [if_neg (by omega)]
    exact hl
  · rw [hlen']
    exact hcast.symm
  · intro j hj
    exact (hget j (by omega)).2

/-- A payload of exactly `33 + N*C*2` bytes for `N = 1`, `C = 1`:
one sample with the single value 9. -/
def payloadC3w : List Nat :=
  accBytes ++ devBytes ++ le4 7 ++ le4 0 ++ le2 500 ++ le2 1 ++ [1] ++ le2 9

/-- The header `payloadC3w` parses to. -/
def hdrC3w : HeaderV0 :=
  { id := accBytes, device := devBytes, t1 := 7, t2 := 0, per := 500,
    nsamp := 1, nmeas := 1 }

/-- The sample bytes of `payloadC3w` after the header. -/
def restC3w : List Nat := [9, 0]

/-- Witness for `C3_exact_length_decodes` at `payloadC3w`. -/
theorem C3_exact_length_decodes_witness :
    ∃ samples, decodeV0 payloadC3w = Except.ok samples ∧
      (samples.length : Int) = hdrC3w.nsamp ∧
      (∀ s ∈ samples, s.values.length = hdrC3w.nmeas) ∧
      ∀ j, j < samples.length →
        (samples.getD j dummySample).values
          = i16Row (restC3w.drop (j * (2 * hdrC3w.nmeas))) hdrC3w.nmeas :=
  C3_exact_length_decodes payloadC3w hdrC3w restC3w rfl (by decide) (by decide)

/-! ## Claim C4 -/

/-- Claim C4: a payload too short for even the fixed header fails to
decode with `MalformedPayload`, and so does every payload whose header
parses with `N ≥ 0` declared samples of `C` channels but whose total
length is below `23 + N*C*2` bytes (such a payload is truncated, since
the full length is in fact `33 + N*C*2`); no record sequence is returned
in either case. -/
theorem C4_truncated_fails (body : List Nat) :
    (body.length < 33 → decodeV0 body = Except.error DecodeErr.malformedPayload) ∧
    ∀ h rest, parseHeader body = Except.ok (h, rest) → 0 ≤ h.nsamp →
      (body.length : Int) < 23 + h.nsamp * (h.nmeas : Int) * 2 →
      decodeV0 body = Except.error DecodeErr.malformedPayload := by
  constructor
  · intro hlt
    unfold decodeV0
    rw [parseHeader_err body hlt]
  · intro h rest hp hns hlen
    obtain ⟨h33, hrest⟩ := parseHeader_ok_inv hp
    set N := h.nsamp.toNat with hN
    have hcast : h.nsamp = (N : Int) := (Int.toNat_of_nonneg hns).symm
    rw [hcast] at hlen
    have hlenN : body.length < 23 + N * h.nmeas * 2 := by exact_mod_cast hlen
    unfold decodeV0
    rw [hp]
    dsimp only
    rw [if_neg (by omega)]
    apply readSamples_err
    rw [hrest, List.length_drop]
    have e1 : N * (2 * h.nmeas) = N * h.nmeas * 2 := by ring
    rw [e1]
    omega

/-- A truncated payload for the C4 witness: the header declares 6 samples
of 1 channel (full length 45, claimed-declared length `23+12 = 35`), but
only 34 bytes are present. -/
def payloadC4 : List Nat :=
  accBytes ++ devBytes ++ le4 0 ++ le4 0 ++ le2 1 ++ le2 6 ++ [1] ++ [5]

/-- The header `payloadC4` parses to. -/
def hdrC4 : HeaderV0 :=
  { id := accBytes, device := devBytes, t1 := 0, t2 := 0, per := 1,
    nsamp := 6, nmeas := 1 }

/-- Witness for `C4_truncated_fails`: the empty payload and `payloadC4`
both fail with `MalformedPayload`. -/
theorem C4_truncated_fails_witness :
    decodeV0 [] = Except.error DecodeErr.malformedPayload ∧
    decodeV0 payloadC4 = Except.error DecodeErr.malformedPayload :=
  ⟨(C4_truncated_fails []).1 (by decide),
   (C4_truncated_fails payloadC4).2 hdrC4 [5] rfl (by decide) (by decide)⟩

/-! ## Claim C10 -/

/-- Claim C10: when the declared (signed 16-bit) sample count is negative,
decode aborts with the runtime failure of allocating a negative-length
slice (`make([]*Sample, nsamp, nsamp)` panics) and returns no record
sequence, even when further bytes follow the header. -/
theorem C10_negative_count (body : List Nat) (h : HeaderV0) (rest : List Nat)
    (hp : parseHeader body = Except.ok (h, rest)) (hns : h.nsamp < 0) :
    decodeV0 body = Except.error DecodeErr.negativeCount := by
  unfold decodeV0
  rw [hp]
  dsimp only
  rw [if_pos hns]

/-- A payload whose sample count field holds `0xFFFF = -1`, with four
extra bytes after the header. -/
def payloadC10 : List Nat :=
  accBytes ++ devBytes ++ le4 0 ++ le4 0 ++ le2 1 ++ [255, 255] ++ [1] ++
  [1, 2, 3, 4]

/-- The header `payloadC10` parses to. -/
def hdrC10 : HeaderV0 :=
  { id := accBytes, device := devBytes, t1 := 0, t2 := 0, per := 1,
    nsamp := -1, nmeas := 1 }

/-- Witness for `C10_negative_count` at `payloadC10`. -/
theorem C10_negative_count_witness :
    decodeV0 payloadC10 = Except.error DecodeErr.negativeCount :=
  C10_negative_count payloadC10 hdrC10 [1, 2, 3, 4] rfl (by decide)

/-! ## Claim C5 -/

/-- Claim C5: the writer emits the header row exactly when the destination
file had size zero before the write; hence appending two batches in
sequence to a brand-new destination path produces a file with exactly one
header row at the top followed by all rows of both batches in order, and
the header is `account, device, time, period, A0..A(C-1)` with C the
channel count of the first record. -/
theorem C5_header_iff_empty
    (s1 : Sample) (b1 : List Sample) (s2 : Sample) (b2 : List Sample)
    (dir : String) (fs : FS)
    (hsame : targetPath s2 dir = targetPath s1 dir)
    (hfresh : fs (targetPath s1 dir) = [])
    (hid : ∀ s ∈ (s1 :: b1) ++ (s2 :: b2), s.id.length = 10) :
    (∀ (s : Sample) (t : List Sample) (g : FS),
      writeToFileV0 (s :: t) dir g (targetPath s dir) =
        g (targetPath s dir) ++
        (if fileSize (g (targetPath s dir)) = 0 then [Sample.header s] else []) ++
        (s :: t).map Sample.row) ∧
    writeToFileV0 (s2 :: b2) dir (writeToFileV0 (s1 :: b1) dir fs)
        (targetPath s1 dir) =
      Sample.header s1 ::
        ((s1 :: b1).map Sample.row ++ (s2 :: b2).map Sample.row) ∧
    (writeToFileV0 (s2 :: b2) dir (writeToFileV0 (s1 :: b1) dir fs)
        (targetPath s1 dir)).count (Sample.header s1) = 1 ∧
    Sample.header s1 = ["account", "device", "time", "period"] ++
      (List.range s1.values.length).map (fun k => "A" ++ toString k) := by
  have hgen : ∀ (s : Sample) (t : List Sample) (g : FS),
      writeToFileV0 (s :: t) dir g (targetPath s dir) =
        g (targetPath s dir) ++
        (if fileSize (g (targetPath s dir)) = 0 then [Sample.header s] else []) ++
        (s :: t).map Sample.row := by
    intro s t g
    rw [writeToFileV0_cons, if_pos rfl]
    by_cases hg : g (targetPath s dir) = []
    · rw [if_pos hg, if_pos ((fileSize_eq_zero_iff _).mpr hg)]
    · rw [if_neg hg, if_neg (fun hz => hg ((fileSize_eq_zero_iff _).mp hz))]
  have h1 : writeToFileV0 (s1 :: b1) dir fs (targetPath s1 dir)
      = Sample.header s1 :: (s1 :: b1).map Sample.row := by
    rw [writeToFileV0_cons, if_pos rfl, hfresh, if_pos rfl]
    rfl
  have h2 : writeToFileV0 (s2 :: b2) dir (writeToFileV0 (s1 :: b1) dir fs)
      (targetPath s1 dir)
      = Sample.header s1 ::
          ((s1 :: b1).map Sample.row ++ (s2 :: b2).map Sample.row) := by
    rw [writeToFileV0_cons, hsame, if_pos rfl, h1, if_neg (by simp)]
    simp
  refine ⟨hgen, h2, ?_, rfl⟩
  rw [h2, List.count_cons_self]
  have hnot : Sample.header s1 ∉
      ((s1 :: b1).map Sample.row ++ (s2 :: b2).map Sample.row) := by
    intro hmem
    rcases List.mem_append.mp hmem with hm | hm
    · obtain ⟨s, hs, heq⟩ := List.mem_map.mp hm
      exact header_ne_row s1 s (hid s (List.mem_append.mpr (Or.inl hs))) heq.symm
    · obtain ⟨s, hs, heq⟩ := List.mem_map.mp hm
      exact header_ne_row s1 s (hid s (List.mem_append.mpr (Or.inr hs))) heq.symm
  rw [List.count_eq_zero_of_not_mem hnot]

/-- First record of the C5 witness batches. -/
def s5a : Sample :=
  { id := accBytes, device := devBytes, timestampMs := 0, per := 1000,
    values := [1] }

/-- First record of the second C5 witness batch: same account, device and
UTC hour as `s5a`, one second later. -/
def s5b : Sample :=
  { id := accBytes, device := devBytes, timestampMs := 1000, per := 1000,
    values := [2] }

/-- Witness for `C5_header_iff_empty`: two one-record batches appended to
a fresh path give one header row followed by both data rows. -/
theorem C5_header_iff_empty_witness :
    writeToFileV0 [s5b] "d" (writeToFileV0 [s5a] "d" (fun _ => []))
        (targetPath s5a "d")
      = [["account", "device", "time", "period", "A0"],
         ["ACCOUNT001", "DEVICE0001", "1970-01-01T00:00:00Z", "1000", "1"],
         ["ACCOUNT001", "DEVICE0001", "1970-01-01T00:00:01Z", "1000", "2"]] := by
  have h := C5_header_iff_empty s5a [] s5b [] "d" (fun _ => []) (by rfl) rfl
    (by decide)
  exact h.2.1.trans (by rfl)

/-! ## Claim C6 -/

/-- Claim C6: the destination path is computed from only the first record
as `root/account/YYYY/MM/DD/HH-device.dat` from the UTC calendar fields
of its timestamp, so two records agreeing on account id, device id and
UTC year/month/day/hour resolve to the same path regardless of their
other fields; the whole batch — including any records past an hour
boundary — is appended to the first record's file, and no other path is
touched. -/
theorem C6_path_determinism (s s' : Sample) (t : List Sample) (dir : String)
    (fs : FS)
    (hid : s.id = s'.id) (hdev : s.device = s'.device)
    (hy : (utcOfMs s.timestampMs).year = (utcOfMs s'.timestampMs).year)
    (hm : (utcOfMs s.timestampMs).month = (utcOfMs s'.timestampMs).month)
    (hd : (utcOfMs s.timestampMs).day = (utcOfMs s'.timestampMs).day)
    (hh : (utcOfMs s.timestampMs).hour = (utcOfMs s'.timestampMs).hour) :
    targetPath s dir = targetPath s' dir ∧
    (∀ q, q ≠ targetPath s dir → writeToFileV0 (s :: t) dir fs q = fs q) ∧
    writeToFileV0 (s :: t) dir fs (targetPath s dir) =
      fs (targetPath s dir) ++
      (if fs (targetPath s dir) = [] then [Sample.header s] else []) ++
      (s :: t).map Sample.row := by
  refine ⟨?_, ?_, ?_⟩
  · unfold targetPath
    dsimp only
    rw [hid, hdev, hy, hm, hd, hh]
  · intro q hq
    rw [writeToFileV0_cons, if_neg hq]
  · rw [writeToFileV0_cons, if_pos rfl]

/-- A record at the start of the epoch hour, for the C6 witness. -/
def s6a : Sample :=
  { id := accBytes, device := devBytes, timestampMs := 0, per := 7,
    values := [1] }

/-- A record 59 minutes later with different period, minute and values but
the same UTC hour, for the C6 witness. -/
def s6b : Sample :=
  { id := accBytes, device := devBytes, timestampMs := 3540000, per := 8,
    values := [9, 9] }

/-- Witness for `C6_path_determinism`: `s6a` and `s6b` share account,
device and UTC hour, so they resolve to the same path. -/
theorem C6_path_determinism_witness :
    targetPath s6a "r" = targetPath s6b "r" :=
  (C6_path_determinism s6a s6b [] "r" (fun _ => []) rfl rfl (by decide)
    (by decide) (by decide) (by decide)).1

/-! ## Claim C7 -/

/-- Claim C7: appending a batch to an existing non-empty destination file
never rewrites or removes previously written bytes — the rows afterwards
are the prior rows followed by the new rows, the encoded file bytes are
the prior bytes followed by the new rows' bytes, and the file size
afterwards is the prior size plus the size of the new rows' encoding. -/
theorem C7_append_only (s : Sample) (t : List Sample) (dir : String) (fs : FS)
    (hne : fs (targetPath s dir) ≠ []) :
    writeToFileV0 (s :: t) dir fs (targetPath s dir) =
      fs (targetPath s dir) ++ (s :: t).map Sample.row ∧
    fileBytes (writeToFileV0 (s :: t) dir fs (targetPath s dir)) =
      fileBytes (fs (targetPath s dir)) ++
        fileBytes ((s :: t).map Sample.row) ∧
    fileSize (writeToFileV0 (s :: t) dir fs (targetPath s dir)) =
      fileSize (fs (targetPath s dir)) +
        fileSize ((s :: t).map Sample.row) := by
  have h1 : writeToFileV0 (s :: t) dir fs (targetPath s dir) =
      fs (targetPath s dir) ++ (s :: t).map Sample.row := by
    rw [writeToFileV0_cons, if_pos rfl, if_neg hne]
    simp
  refine ⟨h1, ?_, ?_⟩
  · rw [h1, fileBytes_append]
  · rw [h1, fileSize_append]

/-- The record appended in the C7 witness. -/
def s7w : Sample :=
  { id := accBytes, device := devBytes, timestampMs := 0, per := 1,
    values := [4] }

/-- A filesystem whose every file already holds one row, for the C7
witness. -/
def fs7 : FS := fun _ => [["x"]]

/-- Witness for `C7_append_only` at a file that already holds one row. -/
theorem C7_append_only_witness :
    writeToFileV0 [s7w] "d" fs7 (targetPath s7w "d") =
      fs7 (targetPath s7w "d") ++ [s7w].map Sample.row ∧
    fileBytes (writeToFileV0 [s7w] "d" fs7 (targetPath s7w "d")) =
      fileBytes (fs7 (targetPath s7w "d")) ++
        fileBytes ([s7w].map Sample.row) ∧
    fileSize (writeToFileV0 [s7w] "d" fs7 (targetPath s7w "d")) =
      fileSize (fs7 (targetPath s7w "d")) +
        fileSize ([s7w].map Sample.row) :=
  C7_append_only s7w [] "d" fs7 (by decide)

/-! ## Claim C8 -/

/-- Claim C8: appending an empty record sequence succeeds as a no-op and
performs no filesystem access — even under a fault model in which every
filesystem step would fail, the call returns success and the filesystem
is unchanged. -/
theorem C8_empty_noop (fl : Faults) (dir : String) (fs : FS) :
    writeToFileV0Run fl [] dir fs = Except.ok fs ∧
    writeToFileV0 [] dir fs = fs :=
  ⟨rfl, rfl⟩

/-! ## Claim C9 -/

/-- A fault assignment in which only the final flush of the buffered
output fails. -/
def flushOnlyFaults : Faults :=
  { mkdirFails := false, openFails := false, statFails := false,
    writeFails := fun _ => false, flushFails := true }

/-- A one-record batch for the C9 failing input. -/
def s9w : Sample :=
  { id := accBytes, device := devBytes, timestampMs := 0, per := 1,
    values := [3] }

/-- Claim C9 (code bug): when every step succeeds except the final flush
of the buffered CSV output, `writeToFileV0` still returns success and the
rows never reach the file — the code calls `writer.Flush()` without ever
checking `writer.Error()`, so a flush failure is silently dropped instead
of being surfaced as `IOFailure` as the claim requires. -/
theorem C9_flush_error_ignored :
    flushOnlyFaults.flushFails = true ∧
    writeToFileV0Run flushOnlyFaults [s9w] "data" (fun _ => []) =
      Except.ok (fun _ => []) :=
  ⟨rfl, rfl⟩

end Seder
